import Mathlib

/-!
Verification of the gtsam-playground pose estimator.

Part 1 embeds the geometric multi-tag pose solver
(`photon::MultiTagOnRioStrategy` and its `detail` helpers from
`PhotonPoseEstimator.cpp`).  Real-valued quantities are modelled over `ℚ`;
the external OpenCV primitives (`cv::Rodrigues`, `cv::solvePnP`) are
parameters of the embedding, exactly as they are black boxes to the code.

Part 2 models the `sfm_mapper::SfmMapper` orchestrator.  Only its header
(`sfm_mapper.h`) is in the repository, so the operations are modelled from
the specification, as marked on each definition.
-/

namespace GtsamPlayground

/-- A 3-vector of exact rationals, standing in for `cv::Point3d` /
`frc::Translation3d` / `Eigen::Matrix<double,3,1>`. -/
structure Vec3 where
  x : ℚ
  y : ℚ
  z : ℚ
deriving DecidableEq

/-- A 2-vector of exact rationals, standing in for `cv::Point2f` pixel
coordinates. -/
structure Point2 where
  x : ℚ
  y : ℚ
deriving DecidableEq

/-- A 3×3 rational matrix, standing in for the 3×3 `cv::Mat` rotation
matrices of the source. -/
structure Mat3 where
  m00 : ℚ
  m01 : ℚ
  m02 : ℚ
  m10 : ℚ
  m11 : ℚ
  m12 : ℚ
  m20 : ℚ
  m21 : ℚ
  m22 : ℚ
deriving DecidableEq

/-- Matrix transpose, embedding `R.t()`. -/
def Mat3.transpose (m : Mat3) : Mat3 :=
  ⟨m.m00, m.m10, m.m20, m.m01, m.m11, m.m21, m.m02, m.m12, m.m22⟩

/-- Matrix–vector product, embedding `R * tvec`. -/
def Mat3.mulVec (m : Mat3) (v : Vec3) : Vec3 :=
  ⟨m.m00 * v.x + m.m01 * v.y + m.m02 * v.z,
   m.m10 * v.x + m.m11 * v.y + m.m12 * v.z,
   m.m20 * v.x + m.m21 * v.y + m.m22 * v.z⟩

/-- The identity matrix; `cv::Rodrigues` of the zero rotation vector. -/
def Mat3.id : Mat3 := ⟨1, 0, 0, 0, 1, 0, 0, 0, 1⟩

/-- Vector negation, embedding `-R * tvec`'s outer minus. -/
def Vec3.neg (v : Vec3) : Vec3 := ⟨-v.x, -v.y, -v.z⟩

/-- Vector addition, embedding `frc::Translation3d operator+`. -/
def Vec3.add (v w : Vec3) : Vec3 := ⟨v.x + w.x, v.y + w.y, v.z + w.z⟩

/-- A pose as the source constructs it at the end of `detail::ToPose3d`:
a translation plus the rotation vector handed to `frc::Rotation3d(rv)`. -/
structure Pose3d where
  trans : Vec3
  rot : Vec3
deriving DecidableEq

/-- Embeds `detail::ToPoint3d`: system-frame translation to the solver's
camera axis convention, `cv::Point3d(-t.Y(), -t.Z(), +t.X())`. -/
def ToPoint3d (t : Vec3) : Vec3 :=
  ⟨-t.y, -t.z, t.x⟩

/-- The camera-to-system translation remap the source applies inside
`detail::ToPose3d`: `tv[0] = +v[2]; tv[1] = -v[0]; tv[2] = -v[1]`. -/
def toPose3dTransRemap (v : Vec3) : Vec3 :=
  ⟨v.z, -v.x, -v.y⟩

/-- The translation remap exactly as the specification words it:
`newX = -camY, newY = -camZ, newZ = camX`. -/
def specTransRemap (v : Vec3) : Vec3 :=
  ⟨-v.y, -v.z, v.x⟩

/-- The translation of the inverted solver pose computed by
`detail::ToPose3d` before any axis remap: `R = Rodrigues(rvec).t();
tvecI = -R * tvec`.  `rodrigues` is the external `cv::Rodrigues`. -/
def invertedTranslation (rodrigues : Vec3 → Mat3) (tvec rvec : Vec3) : Vec3 :=
  Vec3.neg (Mat3.mulVec (Mat3.transpose (rodrigues rvec)) tvec)

/-- Embeds `detail::ToPose3d`: inverts the solver pose, then remaps the
translation as `(+z, -x, -y)` and the rotation vector as `(+z, -x, +y)`,
and reconstructs `Pose3d(Translation3d(tv), Rotation3d(rv))`. -/
def ToPose3d (rodrigues : Vec3 → Mat3) (tvec rvec : Vec3) : Pose3d :=
  let R := Mat3.transpose (rodrigues rvec)
  let tvecI := Vec3.neg (Mat3.mulVec R tvec)
  { trans := ⟨tvecI.z, -tvecI.x, -tvecI.y⟩,
    rot := ⟨rvec.z, -rvec.x, rvec.y⟩ }

/-- The four pixel corners of one detection, in the `target.corners`
index order 0,1,2,3. -/
structure Corners4 (α : Type) where
  c0 : α
  c1 : α
  c2 : α
  c3 : α
deriving DecidableEq

/-- The corners as a list in index order. -/
def Corners4.toList (c : Corners4 α) : List α := [c.c0, c.c1, c.c2, c.c3]

/-- Embeds `TagDetection`: fiducial id plus 4 ordered pixel corners. -/
structure TagDetection where
  id : Int
  corners : Corners4 Point2
deriving DecidableEq

/-- The pose of a tag in the field layout: translation plus the rotation
as its action matrix (`frc::Pose3d` restricted to what the source uses:
`Translation()`, and `Rotation()` acting on a vector via `RotateBy`). -/
structure TagPose where
  trans : Vec3
  rot : Mat3
deriving DecidableEq

/-- Embeds `detail::TagCornerToObjectPoint`: offset `(0, cornerX, cornerY)`
rotated by the tag rotation, translated by the tag position, then taken to
the camera axis convention with `ToPoint3d`. -/
def TagCornerToObjectPoint (cornerX cornerY : ℚ) (tagPose : TagPose) : Vec3 :=
  ToPoint3d (Vec3.add tagPose.trans (Mat3.mulVec tagPose.rot ⟨0, cornerX, cornerY⟩))

/-- Three inches in meters, the `3_in` corner offset of the source. -/
def threeInches : ℚ := 381 / 5000

/-- Embeds `detail::CalcTagCorners`: looks the tag up in the layout
(`GetTagPose`, the external prior-layout collaborator is the function
`layout`), and returns its four object-space corners in the source's
order `(-3,-3), (+3,-3), (+3,+3), (-3,+3)` inches, or `none` for an
unknown id. -/
def CalcTagCorners (tagID : Int) (layout : Int → Option TagPose) :
    Option (Corners4 Vec3) :=
  match layout tagID with
  | some tagPose =>
      some ⟨TagCornerToObjectPoint (-threeInches) (-threeInches) tagPose,
            TagCornerToObjectPoint threeInches (-threeInches) tagPose,
            TagCornerToObjectPoint threeInches threeInches tagPose,
            TagCornerToObjectPoint (-threeInches) threeInches tagPose⟩
  | none => none

/-- The camera intrinsic matrix (`CameraMatrix`, a 3×3 Eigen matrix). -/
def CameraMatrix : Type := Mat3

/-- The distortion coefficient vector (`DistortionMatrix`). -/
def DistortionMatrix : Type := List ℚ

/-- What `cv::solvePnP` produces: its boolean return value plus the
`rvec`/`tvec` output mats it fills in. -/
structure PnpResult where
  retval : Bool
  rvec : Vec3
  tvec : Vec3

/-- One iteration of the corner-accumulation loop of
`MultiTagOnRioStrategy`: if `CalcTagCorners` knows the id, push the 4
pixel corners onto `imagePoints` and the 4 object corners onto
`objectPoints`, in corner-index order; otherwise leave both untouched. -/
def addTargetCorners (layout : Int → Option TagPose)
    (acc : List Point2 × List Vec3) (target : TagDetection) :
    List Point2 × List Vec3 :=
  match CalcTagCorners target.id layout with
  | some tagCorners =>
      (acc.1 ++ Corners4.toList target.corners,
       acc.2 ++ Corners4.toList tagCorners)
  | none => acc

/-- Embeds `photon::MultiTagOnRioStrategy`.  `pnp` is the external
`cv::solvePnP` primitive and `rodrigues` the external `cv::Rodrigues`.
Mirrors the source exactly: missing camera matrix or distortion
coefficients give `std::nullopt`; the correspondence lists are
accumulated over all targets; if `imagePoints.size() < 4` give
`std::nullopt`; otherwise run PnP and return `ToPose3d(tvec, rvec)`
(the boolean result of `solvePnP` is not inspected). -/
def MultiTagOnRioStrategy
    (pnp : List Vec3 → List Point2 → CameraMatrix → DistortionMatrix → PnpResult)
    (rodrigues : Vec3 → Mat3)
    (targets : List TagDetection) (layout : Int → Option TagPose)
    (camMat : Option CameraMatrix) (distCoeffs : Option DistortionMatrix) :
    Option Pose3d :=
  match camMat, distCoeffs with
  | some cm, some dc =>
      let acc := targets.foldl (addTargetCorners layout) ([], [])
      if acc.1.length < 4 then
        none
      else
        let res := pnp acc.2 acc.1 cm dc
        some (ToPose3d rodrigues res.tvec res.rvec)
  | _, _ => none

/-- The pixel corners one detection contributes to `imagePoints`:
its 4 corners when `CalcTagCorners` knows the id, nothing otherwise. -/
def targetImagePoints (layout : Int → Option TagPose) (t : TagDetection) :
    List Point2 :=
  match CalcTagCorners t.id layout with
  | some _ => Corners4.toList t.corners
  | none => []

/-- The object-space corners one detection contributes to `objectPoints`. -/
def targetObjectPoints (layout : Int → Option TagPose) (t : TagDetection) :
    List Vec3 :=
  match CalcTagCorners t.id layout with
  | some cs => Corners4.toList cs
  | none => []

lemma foldl_addTargetCorners (layout : Int → Option TagPose)
    (ts : List TagDetection) (a : List Point2) (b : List Vec3) :
    ts.foldl (addTargetCorners layout) (a, b)
      = (a ++ ts.flatMap (targetImagePoints layout),
         b ++ ts.flatMap (targetObjectPoints layout)) := by
  induction ts generalizing a b with
  | nil => simp
  | cons t ts ih =>
      simp only [List.foldl_cons, List.flatMap_cons, addTargetCorners,
        targetImagePoints, targetObjectPoints]
      cases h : CalcTagCorners t.id layout with
      | some cs => simp [ih, h]
      | none => simp [ih, h]

/- Concrete fixtures used by counterexamples and witnesses below. -/

/-- A layout knowing tags 1 and 2, both at the origin with the identity
rotation. -/
def layout01 : Int → Option TagPose := fun i =>
  if i = 1 ∨ i = 2 then some ⟨⟨0, 0, 0⟩, Mat3.id⟩ else none

/-- A detection of tag 1. -/
def targetA : TagDetection := ⟨1, ⟨⟨0, 0⟩, ⟨1, 0⟩, ⟨1, 1⟩, ⟨0, 1⟩⟩⟩

/-- A detection of tag 2. -/
def targetB : TagDetection := ⟨2, ⟨⟨2, 0⟩, ⟨3, 0⟩, ⟨3, 1⟩, ⟨2, 1⟩⟩⟩

/-- A detection of a tag absent from `layout01`. -/
def targetUnknown : TagDetection := ⟨9, ⟨⟨5, 0⟩, ⟨6, 0⟩, ⟨6, 1⟩, ⟨5, 1⟩⟩⟩

/-- An intrinsic matrix fixture. -/
def cm0 : CameraMatrix := Mat3.id

/-- A distortion fixture. -/
def dc0 : DistortionMatrix := []

/-- A Rodrigues oracle fixture: constant identity.  At the zero rotation
vector used below this is the true value of `cv::Rodrigues`. -/
def rodId : Vec3 → Mat3 := fun _ => Mat3.id

/-- A PnP oracle that converges and writes `rvec = 0`, `tvec = (1,2,3)`. -/
def pnpC1 : List Vec3 → List Point2 → CameraMatrix → DistortionMatrix → PnpResult :=
  fun _ _ _ _ => ⟨true, ⟨0, 0, 0⟩, ⟨1, 2, 3⟩⟩

/-- A PnP oracle that reports failure (`retval = false`) and writes
`rvec = 0`, `tvec = (4,5,6)`. -/
def pnpFail : List Vec3 → List Point2 → CameraMatrix → DistortionMatrix → PnpResult :=
  fun _ _ _ _ => ⟨false, ⟨0, 0, 0⟩, ⟨4, 5, 6⟩⟩

/-- A PnP oracle that converges with all-zero output. -/
def pnpZero : List Vec3 → List Point2 → CameraMatrix → DistortionMatrix → PnpResult :=
  fun _ _ _ _ => ⟨true, ⟨0, 0, 0⟩, ⟨0, 0, 0⟩⟩

/-- C1 counterexample: with both tags 1 and 2 in view, a camera model, and
the PnP solve producing `rvec = 0` (so `Rodrigues(rvec)` is exactly the
identity) and `tvec = (1,2,3)`, the strategy returns the pose with
translation `(-3, 1, 2)` — which is NOT the spec's stated remap
`newX=-camY, newY=-camZ, newZ=camX` of the solver-native translation
`(1,2,3)`, nor of the inverted-pose translation `(-1,-2,-3)`. -/
theorem toPose3d_spec_remap_cex :
    MultiTagOnRioStrategy pnpC1 rodId [targetA, targetB] layout01
        (some cm0) (some dc0) = some ⟨⟨-3, 1, 2⟩, ⟨0, 0, 0⟩⟩
  ∧ invertedTranslation rodId ⟨1, 2, 3⟩ ⟨0, 0, 0⟩ = ⟨-1, -2, -3⟩
  ∧ specTransRemap ⟨1, 2, 3⟩ ≠ ⟨-3, 1, 2⟩
  ∧ specTransRemap ⟨-1, -2, -3⟩ ≠ ⟨-3, 1, 2⟩ := by
  refine ⟨?_, ?_, ?_, ?_⟩
  · norm_num [MultiTagOnRioStrategy, addTargetCorners, CalcTagCorners, layout01,
      targetA, targetB, pnpC1, rodId, ToPose3d, Mat3.transpose, Mat3.mulVec,
      Mat3.id, Vec3.neg, cm0, dc0, Corners4.toList, TagCornerToObjectPoint,
      ToPoint3d, Vec3.add, threeInches]
  · norm_num [invertedTranslation, rodId, Mat3.transpose, Mat3.mulVec, Mat3.id,
      Vec3.neg]
  · norm_num [specTransRemap, Vec3.mk.injEq]
  · norm_num [specTransRemap, Vec3.mk.injEq]

/-- C1 amended: `ToPose3d` converts the inverted solver pose with the
remap `newX=+camZ, newY=-camX, newZ=-camY` — the INVERSE of the
permutation the spec states (applying the spec's stated map to the
returned translation recovers the camera-frame vector) — and the rotation
vector is remapped as `(+camRz, -camRx, +camRy)`, the same permutation as
the translation but with the opposite sign on the third component. -/
theorem toPose3d_remap_amended (rodrigues : Vec3 → Mat3) (tvec rvec : Vec3) :
    (ToPose3d rodrigues tvec rvec).trans
        = toPose3dTransRemap (invertedTranslation rodrigues tvec rvec)
  ∧ specTransRemap ((ToPose3d rodrigues tvec rvec).trans)
        = invertedTranslation rodrigues tvec rvec
  ∧ (ToPose3d rodrigues tvec rvec).rot = ⟨rvec.z, -rvec.x, rvec.y⟩ := by
  refine ⟨rfl, ?_, rfl⟩
  simp [ToPose3d, specTransRemap, invertedTranslation]

/-- C2: the code contradicts its own comment "We should only do multi-tag
if at least 2 tags": with a camera model and a SINGLE detection whose id
is known (4 correspondences), the guard `imagePoints.size() < 4` passes
and the strategy returns a pose instead of failing. -/
theorem multiTag_one_tag_passes_check :
    [targetA].length = 1
  ∧ (CalcTagCorners targetA.id layout01).isSome = true
  ∧ (MultiTagOnRioStrategy pnpZero rodId [targetA] layout01
        (some cm0) (some dc0)).isSome = true := by
  refine ⟨rfl, by decide, by decide⟩

/-- C3 counterexample: the boolean result of `cv::solvePnP` is never
inspected — with enough correspondences and a camera model, a PnP oracle
that reports non-convergence still yields a returned pose, contradicting
"fails with PerspectiveSolveFailed on non-convergence". -/
theorem multiTag_nonconverged_returns_pose_cex :
    (pnpFail [] [] cm0 dc0).retval = false
  ∧ (MultiTagOnRioStrategy pnpFail rodId [targetA, targetB] layout01
        (some cm0) (some dc0)).isSome = true := by
  refine ⟨rfl, by decide⟩

/-- C3 amended: once the camera-model check and the `< 4` correspondence
guard pass, the strategy unconditionally converts the PnP output mats and
returns a pose, regardless of the PnP success flag; no failure path
exists past the guard. -/
theorem multiTag_ignores_pnp_success
    (pnp : List Vec3 → List Point2 → CameraMatrix → DistortionMatrix → PnpResult)
    (rodrigues : Vec3 → Mat3) (targets : List TagDetection)
    (layout : Int → Option TagPose) (cm : CameraMatrix) (dc : DistortionMatrix)
    (h : 4 ≤ (targets.foldl (addTargetCorners layout) ([], [])).1.length) :
    MultiTagOnRioStrategy pnp rodrigues targets layout (some cm) (some dc)
      = some (ToPose3d rodrigues
          (pnp (targets.foldl (addTargetCorners layout) ([], [])).2
               (targets.foldl (addTargetCorners layout) ([], [])).1 cm dc).tvec
          (pnp (targets.foldl (addTargetCorners layout) ([], [])).2
               (targets.foldl (addTargetCorners layout) ([], [])).1 cm dc).rvec) := by
  simp [MultiTagOnRioStrategy, Nat.not_lt.mpr h]

/-- Witness for the C3 amended theorem at a concrete non-converging PnP
oracle. -/
theorem multiTag_ignores_pnp_success_witness :
    4 ≤ ([targetA, targetB].foldl (addTargetCorners layout01) ([], [])).1.length
  ∧ MultiTagOnRioStrategy pnpFail rodId [targetA, targetB] layout01
        (some cm0) (some dc0)
      = some (ToPose3d rodId
          (pnpFail ([targetA, targetB].foldl (addTargetCorners layout01) ([], [])).2
               ([targetA, targetB].foldl (addTargetCorners layout01) ([], [])).1 cm0 dc0).tvec
          (pnpFail ([targetA, targetB].foldl (addTargetCorners layout01) ([], [])).2
               ([targetA, targetB].foldl (addTargetCorners layout01) ([], [])).1 cm0 dc0).rvec) :=
  ⟨by decide,
   multiTag_ignores_pnp_success pnpFail rodId [targetA, targetB] layout01 cm0 dc0
     (by decide)⟩

/-- C4: the correspondence accumulation loop expands every detection
whose id is known into exactly its 4 pixel corners and 4 object corners
in corner-index order, and a detection with an unknown id contributes
nothing and causes no failure (total function, silently skipped). -/
theorem multiTag_correspondence_expansion (targets : List TagDetection)
    (layout : Int → Option TagPose) :
    targets.foldl (addTargetCorners layout) ([], [])
      = (targets.flatMap (targetImagePoints layout),
         targets.flatMap (targetObjectPoints layout))
  ∧ (∀ t cs, CalcTagCorners t.id layout = some cs →
      targetImagePoints layout t
          = [t.corners.c0, t.corners.c1, t.corners.c2, t.corners.c3]
      ∧ targetObjectPoints layout t = [cs.c0, cs.c1, cs.c2, cs.c3]
      ∧ (targetImagePoints layout t).length = 4
      ∧ (targetObjectPoints layout t).length = 4)
  ∧ (∀ t, CalcTagCorners t.id layout = none →
      targetImagePoints layout t = [] ∧ targetObjectPoints layout t = []) := by
  refine ⟨?_, ?_, ?_⟩
  · simpa using foldl_addTargetCorners layout targets [] []
  · intro t cs h
    simp [targetImagePoints, targetObjectPoints, h, Corners4.toList]
  · intro t h
    simp [targetImagePoints, targetObjectPoints, h]

/-- Witness for C4 at concrete detections: a known id expands to its 4
corners, an unknown id to nothing. -/
theorem multiTag_correspondence_expansion_witness :
    CalcTagCorners targetA.id layout01
        = some ⟨TagCornerToObjectPoint (-threeInches) (-threeInches) ⟨⟨0,0,0⟩, Mat3.id⟩,
                TagCornerToObjectPoint threeInches (-threeInches) ⟨⟨0,0,0⟩, Mat3.id⟩,
                TagCornerToObjectPoint threeInches threeInches ⟨⟨0,0,0⟩, Mat3.id⟩,
                TagCornerToObjectPoint (-threeInches) threeInches ⟨⟨0,0,0⟩, Mat3.id⟩⟩
  ∧ CalcTagCorners targetUnknown.id layout01 = none
  ∧ targetImagePoints layout01 targetA
      = [targetA.corners.c0, targetA.corners.c1, targetA.corners.c2, targetA.corners.c3]
  ∧ targetImagePoints layout01 targetUnknown = [] := by
  have hA : CalcTagCorners targetA.id layout01
      = some ⟨TagCornerToObjectPoint (-threeInches) (-threeInches) ⟨⟨0,0,0⟩, Mat3.id⟩,
              TagCornerToObjectPoint threeInches (-threeInches) ⟨⟨0,0,0⟩, Mat3.id⟩,
              TagCornerToObjectPoint threeInches threeInches ⟨⟨0,0,0⟩, Mat3.id⟩,
              TagCornerToObjectPoint (-threeInches) threeInches ⟨⟨0,0,0⟩, Mat3.id⟩⟩ := by
    simp [CalcTagCorners, layout01, targetA]
  have hU : CalcTagCorners targetUnknown.id layout01 = none := by decide
  exact ⟨hA, hU,
    ((multiTag_correspondence_expansion [targetA] layout01).2.1 targetA _ hA).1,
    ((multiTag_correspondence_expansion [targetA] layout01).2.2 targetUnknown hU).1⟩

/-- C10: the system-to-camera remap of `ToPoint3d` and the
camera-to-system translation remap used inside `ToPose3d` are mutually
inverse permutations with matching signs, and `ToPose3d` really applies
the latter to the inverted solver translation. -/
theorem toPoint3d_toPose3d_remap_inverse (v : Vec3) :
    toPose3dTransRemap (ToPoint3d v) = v
  ∧ ToPoint3d (toPose3dTransRemap v) = v
  ∧ ∀ (rodrigues : Vec3 → Mat3) (tvec rvec : Vec3),
      (ToPose3d rodrigues tvec rvec).trans
        = toPose3dTransRemap (invertedTranslation rodrigues tvec rvec) := by
  refine ⟨?_, ?_, fun _ _ _ => rfl⟩
  · simp [ToPoint3d, toPose3dTransRemap]
  · simp [ToPoint3d, toPose3dTransRemap]

/-!
Part 2: the `sfm_mapper::SfmMapper` orchestrator.  The repository holds
only its header `sfm_mapper.h`; every operation below whose body is not
in the repository is modelled from the specification and marked so.
The pose value type `P` is kept abstract (the claims do not depend on
SE(3) arithmetic); `cfg.comp` is pose composition.
-/

/-- Identifies either a motion-state node or a landmark node
(`gtsam::Key` under the symbol shorthand of the header). -/
inductive VariableKey where
  | state (idx : Nat)
  | landmark (id : Int)
deriving DecidableEq

/-- The failure kind of the time synchronizer (spec §4.2/§7). -/
inductive MapperError where
  | NoAssociableState
deriving DecidableEq

/-- Mirrors `sfm_mapper::OdomPoseDelta`: timestamp plus relative pose. -/
structure OdomPoseDelta (P : Type) where
  time : Int
  poseDelta : P

/-- Mirrors `sfm_mapper::KeyframeData`: timestamp, camera index, and the
tags in view. -/
structure KeyframeData where
  time : Int
  cameraIdx : Nat
  observation : List TagDetection

/-- Mirrors `sfm_mapper::OptimizerState`: one round's odometry deltas and
keyframes. -/
structure OptimizerState (P : Type) where
  odometryMeasurements : List (OdomPoseDelta P)
  keyframes : List KeyframeData

/-- A factor as a tagged variant carrying only the measurement and the
keys it touches (spec §9): odometry-relative, projection, anchor-prior. -/
inductive Factor (P : Type) where
  | odometry (a b : Nat) (delta : P)
  | projection (stateKey cam : Nat) (tag : Int) (px : Point2)
  | anchor (tag : Int) (pose : P)
deriving DecidableEq

/-- The configured collaborators of `SfmMapper` (constructor arguments in
the header): the prior layout, the fixed-anchor tag list, pose
composition, and the back-projection seed for landmarks absent from the
layout (spec §4.3). -/
structure MapperCfg (P : Type) where
  layoutGuess : Int → Option P
  fixedTags : List Int
  comp : P → P → P
  backproject : P → Point2 → P

/-- Mirrors the private cross-call state of `SfmMapper` in the header:
graph, current estimate, time→key map, latest-state pointer, latest pose,
and the got-a-keyframe flag. -/
structure MapperState (P : Type) where
  graph : List (Factor P)
  currentEstimate : List (VariableKey × P)
  timeToKeyMap : List (Int × Nat)
  latestRobotState : Nat
  wTb_latest : P
  gotAkeyframe : Bool

/-- Lookup of a key's value in the estimate. -/
def findVal (k : VariableKey) : List (VariableKey × P) → Option P
  | [] => none
  | e :: rest => if e.1 = k then some e.2 else findVal k rest

/-- Seeds an initial value only when the key has none (spec §4.3: a node
must never be left uninitialized, and values are never overwritten by the
builder). -/
def seedIfAbsent (k : VariableKey) (v : P) (est : List (VariableKey × P)) :
    List (VariableKey × P) :=
  match findVal k est with
  | some _ => est
  | none => est ++ [(k, v)]

/-- One time-map entry is closer to the query than another: strictly
smaller absolute difference, or equal difference with the strictly
earlier timestamp (the tie rule of spec §4.2). -/
def closerTo (q : Int) (e best : Int × Nat) : Prop :=
  (e.1 - q).natAbs < (best.1 - q).natAbs
    ∨ ((e.1 - q).natAbs = (best.1 - q).natAbs ∧ e.1 < best.1)

instance (q : Int) (e best : Int × Nat) : Decidable (closerTo q e best) := by
  unfold closerTo
  infer_instance

/-- The running-best scan over the remaining time-map entries. -/
def nearestEntry (q : Int) : Int × Nat → List (Int × Nat) → Int × Nat
  | best, [] => best
  | best, e :: rest =>
      if closerTo q e best then nearestEntry q e rest
      else nearestEntry q best rest

/-- Modelled from the spec: `SfmMapper::GetNearestStateToKeyframe`, whose
body is not in the repository.  Returns the motion-state key whose
timestamp has minimum absolute difference to the keyframe timestamp,
ties broken toward the earlier timestamp; fails with `NoAssociableState`
on an empty map (spec §4.2). -/
def GetNearestStateToKeyframe (q : Int) (m : List (Int × Nat)) :
    Except MapperError Nat :=
  match m with
  | [] => Except.error MapperError.NoAssociableState
  | e :: rest => Except.ok (nearestEntry q e rest).2

/-- Modelled from the spec: processing one `OdomPoseDelta` (spec §4.3,
odometry factors): create the next motion-state key, add a relative-pose
factor from the previous latest state, seed the new node by composing the
prior latest estimate with the delta, advance the latest-state pointer
and the time map. -/
def applyOdomDelta (cfg : MapperCfg P) (st : MapperState P)
    (d : OdomPoseDelta P) : MapperState P :=
  let newKey := st.latestRobotState + 1
  let newPose := cfg.comp st.wTb_latest d.poseDelta
  { graph := st.graph ++ [Factor.odometry st.latestRobotState newKey d.poseDelta]
    currentEstimate := seedIfAbsent (VariableKey.state newKey) newPose st.currentEstimate
    timeToKeyMap := st.timeToKeyMap ++ [(d.time, newKey)]
    latestRobotState := newKey
    wTb_latest := newPose
    gotAkeyframe := st.gotAkeyframe }

/-- Modelled from the spec: `SfmMapper::AddOdometryFactors`, whose body
is not in the repository; deltas are applied strictly in input order
(spec §5). -/
def AddOdometryFactors (cfg : MapperCfg P) (st : MapperState P)
    (newThings : OptimizerState P) : MapperState P :=
  newThings.odometryMeasurements.foldl (applyOdomDelta cfg) st

/-- The four projection factors of one detection, one per corner. -/
def projectionFactors (stateKey camIdx : Nat) (t : TagDetection) :
    List (Factor P) :=
  (Corners4.toList t.corners).map (Factor.projection stateKey camIdx t.id)

/-- Modelled from the spec: processing one `LandmarkDetection` of a
keyframe (spec §4.3, keyframe factors): add one projection factor per
corner; a landmark lacking an initial value is seeded from the prior
layout, or by back-projection when absent; a fixed-anchor landmark is
added once with its pinning prior and excluded from all future
re-seeding. -/
def applyDetection (cfg : MapperCfg P) (stateKey camIdx : Nat)
    (st : MapperState P) (t : TagDetection) : MapperState P :=
  let lk := VariableKey.landmark t.id
  let stateEst := (findVal (VariableKey.state stateKey) st.currentEstimate).getD st.wTb_latest
  let withProj := { st with graph := st.graph ++ projectionFactors stateKey camIdx t }
  match findVal lk st.currentEstimate with
  | some _ => withProj
  | none =>
      if t.id ∈ cfg.fixedTags then
        match cfg.layoutGuess t.id with
        | some p =>
            { withProj with
                graph := withProj.graph ++ [Factor.anchor t.id p]
                currentEstimate := withProj.currentEstimate ++ [(lk, p)] }
        | none => withProj
      else
        let p :=
          match cfg.layoutGuess t.id with
          | some p => p
          | none => cfg.backproject stateEst t.corners.c0
        { withProj with currentEstimate := withProj.currentEstimate ++ [(lk, p)] }

/-- Modelled from the spec: processing one keyframe (spec §4.3): resolve
its motion state via the time synchronizer; on failure the keyframe is
retained by the caller for retry and nothing is mutated; otherwise every
contained detection is expanded and the got-a-keyframe flag is set. -/
def applyKeyframe (cfg : MapperCfg P) (st : MapperState P)
    (kf : KeyframeData) : MapperState P :=
  match GetNearestStateToKeyframe kf.time st.timeToKeyMap with
  | Except.error _ => st
  | Except.ok sk =>
      let st1 := kf.observation.foldl (applyDetection cfg sk kf.cameraIdx) st
      { st1 with gotAkeyframe := true }

/-- Modelled from the spec: `SfmMapper::AddKeyframes`, whose body is not
in the repository; keyframes are associated against the fully updated
time map (spec §5). -/
def AddKeyframes (cfg : MapperCfg P) (st : MapperState P)
    (newThings : OptimizerState P) : MapperState P :=
  newThings.keyframes.foldl (applyKeyframe cfg) st

/-- Modelled from the spec: `SfmMapper::Optimize`, whose body is not in
the repository (spec §4.4): build factors for the batch (no-op on an
empty batch); if the batch added no factors, return the unchanged state;
otherwise submit the new factors and merged initial values to the
incremental nonlinear solver `solve` (the external ISAM2 collaborator of
spec §6) and retain its updated full estimate. -/
def Optimize (cfg : MapperCfg P)
    (solve : List (Factor P) → List (VariableKey × P) → List (VariableKey × P))
    (st : MapperState P) (newThings : OptimizerState P) : MapperState P :=
  let built := AddKeyframes cfg (AddOdometryFactors cfg st newThings) newThings
  let newFactors := built.graph.drop st.graph.length
  if newFactors.isEmpty then st
  else { built with currentEstimate := solve newFactors built.currentEstimate }

/-- One entry is at least as close to the query as another: strictly
smaller absolute difference, or equal difference and no later. -/
def nearLE (q : Int) (a b : Int × Nat) : Prop :=
  (a.1 - q).natAbs < (b.1 - q).natAbs
    ∨ ((a.1 - q).natAbs = (b.1 - q).natAbs ∧ a.1 ≤ b.1)

lemma nearLE_refl (q : Int) (a : Int × Nat) : nearLE q a a :=
  Or.inr ⟨rfl, le_refl _⟩

lemma nearLE_trans {q : Int} {a b c : Int × Nat} (h1 : nearLE q a b)
    (h2 : nearLE q b c) : nearLE q a c := by
  rcases h1 with h1 | ⟨h1, h1t⟩ <;> rcases h2 with h2 | ⟨h2, h2t⟩
  · exact Or.inl (h1.trans h2)
  · exact Or.inl (h2 ▸ h1)
  · exact Or.inl (h1 ▸ h2)
  · exact Or.inr ⟨h1.trans h2, h1t.trans h2t⟩

lemma closerTo_nearLE {q : Int} {e b : Int × Nat} (h : closerTo q e b) :
    nearLE q e b := by
  rcases h with h | ⟨h, ht⟩
  · exact Or.inl h
  · exact Or.inr ⟨h, le_of_lt ht⟩

lemma not_closerTo_nearLE {q : Int} {e b : Int × Nat} (h : ¬ closerTo q e b) :
    nearLE q b e := by
  unfold closerTo at h
  push_neg at h
  obtain ⟨h1, h2⟩ := h
  rcases eq_or_lt_of_le h1 with heq | hlt
  · exact Or.inr ⟨heq, h2 heq.symm⟩
  · exact Or.inl hlt

lemma nearestEntry_spec (q : Int) (l : List (Int × Nat)) :
    ∀ best : Int × Nat, nearestEntry q best l ∈ best :: l
      ∧ ∀ c ∈ best :: l, nearLE q (nearestEntry q best l) c := by
  induction l with
  | nil =>
      intro best
      refine ⟨List.mem_singleton.mpr rfl, ?_⟩
      intro c hc
      rw [List.mem_singleton] at hc
      subst hc
      exact nearLE_refl q c
  | cons e rest ih =>
      intro best
      by_cases h : closerTo q e best
      · obtain ⟨hmem, hmin⟩ := ih e
        rw [show nearestEntry q best (e :: rest) = nearestEntry q e rest from by
          simp [nearestEntry, h]]
        constructor
        · exact List.mem_cons_of_mem _ hmem
        · intro c hc
          rcases List.mem_cons.mp hc with rfl | hc'
          · exact nearLE_trans (hmin e (List.mem_cons_self _ _)) (closerTo_nearLE h)
          · exact hmin c hc'
      · obtain ⟨hmem, hmin⟩ := ih best
        rw [show nearestEntry q best (e :: rest) = nearestEntry q best rest from by
          simp [nearestEntry, h]]
        constructor
        · rcases List.mem_cons.mp hmem with hb | hr
          · rw [hb]
            exact List.mem_cons_self _ _
          · exact List.mem_cons_of_mem _ (List.mem_cons_of_mem _ hr)
        · intro c hc
          rcases List.mem_cons.mp hc with rfl | hc'
          · exact hmin c (List.mem_cons_self _ _)
          · rcases List.mem_cons.mp hc' with rfl | hc''
            · exact nearLE_trans (hmin best (List.mem_cons_self _ _))
                (not_closerTo_nearLE h)
            · exact hmin c (List.mem_cons_of_mem _ hc'')

/-- C5: on a non-empty time map, the time synchronizer returns the key of
an entry whose timestamp has minimum absolute difference to the query,
ties broken toward the earlier timestamp; in particular states at
{10,20,35} queried at 22 give the state at 20 (key 2), and states at
{10,20} queried at 15 give the state at 10 (key 1). -/
theorem getNearestState_closest (q : Int) (m : List (Int × Nat)) (h : m ≠ []) :
    (∃ e, e ∈ m ∧ GetNearestStateToKeyframe q m = Except.ok e.2
       ∧ ∀ e' ∈ m, (e.1 - q).natAbs < (e'.1 - q).natAbs
           ∨ ((e.1 - q).natAbs = (e'.1 - q).natAbs ∧ e.1 ≤ e'.1))
  ∧ GetNearestStateToKeyframe 22 [(10, 1), (20, 2), (35, 3)] = Except.ok 2
  ∧ GetNearestStateToKeyframe 15 [(10, 1), (20, 2)] = Except.ok 1 := by
  refine ⟨?_, by rfl, by rfl⟩
  match m with
  | [] => exact absurd rfl h
  | e :: rest =>
      obtain ⟨hmem, hmin⟩ := nearestEntry_spec q rest e
      exact ⟨nearestEntry q e rest, hmem, rfl, fun e' he' => hmin e' he'⟩

/-- Witness for C5 at the concrete time map of the spec's example. -/
theorem getNearestState_closest_witness :
    ([((10 : Int), (1 : Nat)), (20, 2), (35, 3)] ≠ [])
  ∧ (∃ e, e ∈ [((10 : Int), (1 : Nat)), (20, 2), (35, 3)]
       ∧ GetNearestStateToKeyframe 22 [((10 : Int), (1 : Nat)), (20, 2), (35, 3)]
            = Except.ok e.2
       ∧ ∀ e' ∈ [((10 : Int), (1 : Nat)), (20, 2), (35, 3)],
           (e.1 - 22).natAbs < (e'.1 - 22).natAbs
             ∨ ((e.1 - 22).natAbs = (e'.1 - 22).natAbs ∧ e.1 ≤ e'.1)) :=
  ⟨by decide,
   (getNearestState_closest 22 [((10 : Int), (1 : Nat)), (20, 2), (35, 3)]
      (by decide)).1⟩

/-- C6: on an empty state map the time synchronizer always fails with
`NoAssociableState` and never returns a motion-state key. -/
theorem getNearestState_empty (q : Int) :
    GetNearestStateToKeyframe q []
      = Except.error MapperError.NoAssociableState := rfl

lemma findVal_append_of_some {P : Type} {k : VariableKey} {v : P}
    {l l' : List (VariableKey × P)} (h : findVal k l = some v) :
    findVal k (l ++ l') = some v := by
  induction l with
  | nil => simp [findVal] at h
  | cons e rest ih =>
      simp only [findVal, List.cons_append] at h ⊢
      by_cases he : e.1 = k
      · rwa [if_pos he] at h ⊢
      · rw [if_neg he] at h ⊢
        exact ih h

lemma seedIfAbsent_of_some {P : Type} {k k' : VariableKey} {v w : P}
    {est : List (VariableKey × P)} (h : findVal k est = some v) :
    findVal k (seedIfAbsent k' w est) = some v := by
  unfold seedIfAbsent
  cases hfind : findVal k' est
  · exact findVal_append_of_some h
  · exact h

lemma foldl_preserves {σ α : Type} (f : σ → α → σ) (Q : σ → Prop)
    (h : ∀ s a, Q s → Q (f s a)) :
    ∀ (l : List α) (s : σ), Q s → Q (l.foldl f s) := by
  intro l
  induction l with
  | nil => exact fun s hs => hs
  | cons a l ih => exact fun s hs => ih _ (h s a hs)

lemma applyOdomDelta_findVal_some {P : Type} (cfg : MapperCfg P)
    {k : VariableKey} {v : P} (st : MapperState P) (d : OdomPoseDelta P)
    (h : findVal k st.currentEstimate = some v) :
    findVal k (applyOdomDelta cfg st d).currentEstimate = some v :=
  seedIfAbsent_of_some h

lemma applyDetection_findVal_some {P : Type} (cfg : MapperCfg P)
    (sk ci : Nat) {k : VariableKey} {v : P} (st : MapperState P)
    (t : TagDetection) (h : findVal k st.currentEstimate = some v) :
    findVal k (applyDetection cfg sk ci st t).currentEstimate = some v := by
  unfold applyDetection
  dsimp only
  split
  · exact h
  · split
    · split
      · exact findVal_append_of_some h
      · exact h
    · exact findVal_append_of_some h

lemma applyKeyframe_findVal_some {P : Type} (cfg : MapperCfg P)
    {k : VariableKey} {v : P} (st : MapperState P) (kf : KeyframeData)
    (h : findVal k st.currentEstimate = some v) :
    findVal k (applyKeyframe cfg st kf).currentEstimate = some v := by
  unfold applyKeyframe
  cases GetNearestStateToKeyframe kf.time st.timeToKeyMap
  · exact h
  · exact foldl_preserves (applyDetection cfg _ kf.cameraIdx)
      (fun s => findVal k s.currentEstimate = some v)
      (fun s a hs => applyDetection_findVal_some cfg _ kf.cameraIdx s a hs)
      kf.observation st h

lemma built_findVal_some {P : Type} (cfg : MapperCfg P)
    {k : VariableKey} {v : P} (st : MapperState P)
    (batch : OptimizerState P) (h : findVal k st.currentEstimate = some v) :
    findVal k (AddKeyframes cfg (AddOdometryFactors cfg st batch)
        batch).currentEstimate = some v := by
  unfold AddKeyframes AddOdometryFactors
  exact foldl_preserves (applyKeyframe cfg)
    (fun s => findVal k s.currentEstimate = some v)
    (fun s a hs => applyKeyframe_findVal_some cfg s a hs)
    batch.keyframes _
    (foldl_preserves (applyOdomDelta cfg)
      (fun s => findVal k s.currentEstimate = some v)
      (fun s a hs => applyOdomDelta_findVal_some cfg s a hs)
      batch.odometryMeasurements st h)

lemma Optimize_findVal_some {P : Type} (cfg : MapperCfg P)
    (solve : List (Factor P) → List (VariableKey × P) → List (VariableKey × P))
    {k : VariableKey} {v : P} (st : MapperState P) (batch : OptimizerState P)
    (hsolve : ∀ g est, findVal k est = some v → findVal k (solve g est) = some v)
    (h : findVal k st.currentEstimate = some v) :
    findVal k (Optimize cfg solve st batch).currentEstimate = some v := by
  unfold Optimize
  dsimp only
  split
  · exact h
  · exact hsolve _ _ (built_findVal_some cfg st batch h)

lemma graph_extends_applyOdomDelta {P : Type} (cfg : MapperCfg P)
    (st : MapperState P) (d : OdomPoseDelta P) :
    ∃ t, (applyOdomDelta cfg st d).graph = st.graph ++ t :=
  ⟨_, rfl⟩

lemma graph_extends_applyDetection {P : Type} (cfg : MapperCfg P)
    (sk ci : Nat) (st : MapperState P) (t : TagDetection) :
    ∃ u, (applyDetection cfg sk ci st t).graph = st.graph ++ u := by
  unfold applyDetection
  dsimp only
  split
  · exact ⟨_, rfl⟩
  · split
    · split
      · exact ⟨_, List.append_assoc _ _ _⟩
      · exact ⟨_, rfl⟩
    · exact ⟨_, rfl⟩

lemma foldl_graph_extends {P : Type} {α : Type}
    (f : MapperState P → α → MapperState P)
    (hf : ∀ s a, ∃ t, (f s a).graph = s.graph ++ t) :
    ∀ (l : List α) (s : MapperState P),
      ∃ t, (l.foldl f s).graph = s.graph ++ t := by
  intro l
  induction l with
  | nil => exact fun s => ⟨[], by simp⟩
  | cons a l ih =>
      intro s
      obtain ⟨t1, h1⟩ := hf s a
      obtain ⟨t2, h2⟩ := ih (f s a)
      exact ⟨t1 ++ t2, by rw [List.foldl_cons, h2, h1, List.append_assoc]⟩

lemma graph_extends_applyKeyframe {P : Type} (cfg : MapperCfg P)
    (st : MapperState P) (kf : KeyframeData) :
    ∃ t, (applyKeyframe cfg st kf).graph = st.graph ++ t := by
  unfold applyKeyframe
  cases GetNearestStateToKeyframe kf.time st.timeToKeyMap
  · exact ⟨[], by simp⟩
  · exact foldl_graph_extends (applyDetection cfg _ kf.cameraIdx)
      (fun s a => graph_extends_applyDetection cfg _ kf.cameraIdx s a)
      kf.observation st

lemma graph_extends_built {P : Type} (cfg : MapperCfg P)
    (st : MapperState P) (batch : OptimizerState P) :
    ∃ t, (AddKeyframes cfg (AddOdometryFactors cfg st batch) batch).graph
      = st.graph ++ t := by
  unfold AddKeyframes AddOdometryFactors
  obtain ⟨t1, h1⟩ := foldl_graph_extends (applyOdomDelta cfg)
    (fun s a => graph_extends_applyOdomDelta cfg s a)
    batch.odometryMeasurements st
  obtain ⟨t2, h2⟩ := foldl_graph_extends (applyKeyframe cfg)
    (fun s a => graph_extends_applyKeyframe cfg s a)
    batch.keyframes (batch.odometryMeasurements.foldl (applyOdomDelta cfg) st)
  exact ⟨t1 ++ t2, by rw [h2, h1, List.append_assoc]⟩

/-- C7: `Optimize` on an empty batch returns the estimator state
unchanged (graph, current estimate, time map, latest-state pointer and
all), so two successive empty-batch calls return identical results. -/
theorem optimize_empty_batch_pure {P : Type} (cfg : MapperCfg P)
    (solve : List (Factor P) → List (VariableKey × P) → List (VariableKey × P))
    (st : MapperState P) :
    Optimize cfg solve st ⟨[], []⟩ = st
  ∧ Optimize cfg solve (Optimize cfg solve st ⟨[], []⟩) ⟨[], []⟩
      = Optimize cfg solve st ⟨[], []⟩ := by
  have h : ∀ s : MapperState P, Optimize cfg solve s ⟨[], []⟩ = s := by
    intro s
    unfold Optimize AddKeyframes AddOdometryFactors
    simp [List.drop_length]
  exact ⟨h st, by rw [h st]; exact h st⟩

/-- C8: a fixed-anchor landmark's value, once seeded, survives every
later `Optimize` call unchanged, for any sequence of batches including
new or conflicting observations of that landmark — the builder never
re-seeds an existing landmark value, and the solver (which pins anchors
with the strong prior, hypothesis `hsolve`) never moves it. -/
theorem anchor_value_stable {P : Type} (cfg : MapperCfg P)
    (solve : List (Factor P) → List (VariableKey × P) → List (VariableKey × P))
    (st : MapperState P) (batches : List (OptimizerState P)) (id : Int) (p : P)
    (_hfix : id ∈ cfg.fixedTags)
    (hsolve : ∀ g est, findVal (VariableKey.landmark id) (solve g est)
        = findVal (VariableKey.landmark id) est)
    (hseed : findVal (VariableKey.landmark id) st.currentEstimate = some p) :
    findVal (VariableKey.landmark id)
      (batches.foldl (Optimize cfg solve) st).currentEstimate = some p := by
  refine foldl_preserves (Optimize cfg solve)
    (fun s => findVal (VariableKey.landmark id) s.currentEstimate = some p)
    (fun s b hs => Optimize_findVal_some cfg solve s b
      (fun g est hsome => by rw [hsolve]; exact hsome) hs)
    batches st hseed

/-- C9: one `Optimize` call never loses a variable key (every key with a
value before the call still has one after it, given the solver keeps all
previously solved values, hypothesis `hsolve`), and the factor graph only
grows: the new graph is the old graph plus appended factors. -/
theorem variableKeys_monotone {P : Type} (cfg : MapperCfg P)
    (solve : List (Factor P) → List (VariableKey × P) → List (VariableKey × P))
    (st : MapperState P) (batch : OptimizerState P)
    (hsolve : ∀ g est k, (findVal k est).isSome = true →
        (findVal k (solve g est)).isSome = true) :
    (∀ k, (findVal k st.currentEstimate).isSome = true →
       (findVal k (Optimize cfg solve st batch).currentEstimate).isSome = true)
  ∧ ∃ added, (Optimize cfg solve st batch).graph = st.graph ++ added := by
  constructor
  · intro k hk
    obtain ⟨v, hv⟩ := Option.isSome_iff_exists.mp hk
    unfold Optimize
    dsimp only
    split
    · exact hk
    · refine hsolve _ _ k ?_
      rw [built_findVal_some cfg st batch hv]
      rfl
  · unfold Optimize
    dsimp only
    split
    · exact ⟨[], by simp⟩
    · exact graph_extends_built cfg st batch

/- Concrete mapper fixtures for witnesses (pose type `Int`, composition
by addition). -/

/-- A corner fixture for mapper witnesses. -/
def cornersW : Corners4 Point2 := ⟨⟨0, 0⟩, ⟨1, 0⟩, ⟨1, 1⟩, ⟨0, 1⟩⟩

/-- A mapper configuration fixture: tag 7 is a fixed anchor at layout
position 5. -/
def cfgW : MapperCfg Int :=
  ⟨fun i => if i = 7 then some 5 else none, [7], Int.add, fun p _ => p⟩

/-- An incremental-solver fixture that returns the merged values
unchanged; it preserves anchors and never discards a value. -/
def solveW : List (Factor Int) → List (VariableKey × Int) → List (VariableKey × Int) :=
  fun _ est => est

/-- A starting state fixture with anchor tag 7 already seeded at 5. -/
def stW : MapperState Int := ⟨[], [(VariableKey.landmark 7, 5)], [], 0, 0, false⟩

/-- A batch fixture with one odometry delta and one keyframe observing
anchor tag 7 (a conflicting observation of the seeded anchor). -/
def batchW : OptimizerState Int := ⟨[⟨0, 1⟩], [⟨0, 0, [⟨7, cornersW⟩]⟩]⟩

/-- Witness for C8: the seeded anchor value of tag 7 is unchanged after
an `Optimize` call whose batch re-observes it. -/
theorem anchor_value_stable_witness :
    (7 : Int) ∈ cfgW.fixedTags
  ∧ findVal (VariableKey.landmark 7) stW.currentEstimate = some 5
  ∧ findVal (VariableKey.landmark 7)
      ([batchW].foldl (Optimize cfgW solveW) stW).currentEstimate = some 5 :=
  ⟨by simp [cfgW], rfl,
   anchor_value_stable cfgW solveW stW [batchW] 7 5 (by simp [cfgW])
     (fun _ _ => rfl) rfl⟩

/-- Witness for C9: after the fixture batch, the key of tag 7 is still
present and the graph is the old graph plus appended factors. -/
theorem variableKeys_monotone_witness :
    (findVal (VariableKey.landmark 7) stW.currentEstimate).isSome = true
  ∧ (findVal (VariableKey.landmark 7)
        (Optimize cfgW solveW stW batchW).currentEstimate).isSome = true
  ∧ ∃ added, (Optimize cfgW solveW stW batchW).graph = stW.graph ++ added :=
  ⟨rfl,
   (variableKeys_monotone cfgW solveW stW batchW (fun _ _ _ h => h)).1 _ rfl,
   (variableKeys_monotone cfgW solveW stW batchW (fun _ _ _ h => h)).2⟩

end GtsamPlayground
